import Mathlib

/-!
Verification of the retrieval core of the Enigma AI bot.

This file is a shallow embedding of `src/utils/vector_store.py` (class
`VectorStore`): the fallback (in-memory plus file-persisted) collection
store, the cosine-similarity scoring, the full-scan search, and the
engine-level operations with their sticky Milvus failover.

Modelling conventions:
- Python floats are modelled as real numbers.
- The external Milvus backend is modelled by a per-call outcome parameter
  `PrimaryOutcome`: the try block around each primary call either returns a
  value or raises.  The embedding provider is likewise a parameter: the
  query embedding is passed as `Option (List Real)`, `none` standing for a
  provider failure and the empty list for an empty embedding, both falsy in
  the Python truthiness test `if not query_embedding`.
- `uuid.uuid4()` identifiers are modelled by a fresh-id counter carried in
  the store state; only freshness and opacity of ids matter here.
- The persisted file `vector_storage/<collection_name>.json` is modelled by
  the map `files`, keyed by collection name (the name-to-path map is
  injective).  Collection metadata (a uuid and the name, lines 107-110) is
  carried by no claim and is omitted from the file image.
- Python `list.sort(key=..., reverse=True)` is a stable sort; it is
  modelled by a stable insertion sort `sortDescBy`.
-/

/-- Document fragment as passed into `add_documents`: the input dicts carry
keys `text`, `original_text` and `embedding` (lines 167-172, 195-202). -/
structure DocumentIn where
  text : String
  original_text : String
  embedding : List Real

/-- Stored document entry as built by `_add_documents_fallback`
(lines 196-202): a fresh id plus the input fields and the filename. -/
structure DocumentEntry where
  id : String
  text : String
  original_text : String
  filename : String
  embedding : List Real

/-- Fallback collection: the `documents` list of a collection dict
(line 106). -/
structure FallbackCollection where
  documents : List DocumentEntry

/-- State of one `VectorStore` instance on the fallback path:
the `milvus_available` flag, the in-memory `collections` map, the
persisted files of `vector_storage`, and the fresh-id counter that
models `uuid.uuid4()`. -/
structure VectorStore where
  milvus_available : Bool
  collections : String → Option FallbackCollection
  files : String → Option FallbackCollection
  next_id : Nat

/-- Pointwise update of a string-keyed map, as done by Python dict and
file writes and deletes. -/
def updMap (m : String → Option FallbackCollection) (name : String)
    (v : Option FallbackCollection) : String → Option FallbackCollection :=
  fun n => if n = name then v else m n

/-- Dot product of two vectors, `np.dot` on equal-length 1-D arrays
(line 312). -/
def dotList (v w : List Real) : Real :=
  (List.zipWith (fun a b => a * b) v w).sum

/-- Euclidean norm, `np.linalg.norm` (lines 313-314). -/
noncomputable def vecNorm (v : List Real) : Real :=
  Real.sqrt (dotList v v)

/-- `VectorStore._cosine_similarity` (lines 305-322).  On vectors of
mismatched length `np.dot` raises and the catch-all handler returns 0
(lines 320-322); a zero norm on either side returns 0 before the division
(lines 316-317); otherwise the score is `dot / (norm1 * norm2)`
(line 319).  The function is total: no input raises and no division by
zero is ever taken. -/
noncomputable def _cosine_similarity (vec1 vec2 : List Real) : Real :=
  if vec1.length = vec2.length then
    if vecNorm vec1 = 0 ∨ vecNorm vec2 = 0 then 0
    else dotList vec1 vec2 / (vecNorm vec1 * vecNorm vec2)
  else 0

/-- `VectorStore._format_collection_name` (lines 58-60): strip every
character outside `[a-zA-Z0-9_]` and add the `sess_` namespace token. -/
def _format_collection_name (session_id : String) : String :=
  "sess_" ++ String.mk
    (session_id.toList.filter fun c => c.isAlpha || c.isDigit || c == '_')

@[simp] theorem dotList_nil_left (w : List Real) : dotList [] w = 0 := rfl

@[simp] theorem dotList_nil_right (v : List Real) : dotList v [] = 0 := by
  cases v <;> rfl

theorem dotList_cons (a b : Real) (v w : List Real) :
    dotList (a :: v) (b :: w) = a * b + dotList v w := by
  simp [dotList]

theorem dotList_self_nonneg (v : List Real) : 0 ≤ dotList v v := by
  induction v with
  | nil => simp
  | cons a v ih =>
    rw [dotList_cons]
    nlinarith [mul_self_nonneg a]

/-- Cauchy-Schwarz for the list dot product, by induction on the vectors. -/
theorem dotList_sq_le (v w : List Real) :
    dotList v w ^ 2 ≤ dotList v v * dotList w w := by
  induction v generalizing w with
  | nil => simp
  | cons a v ih =>
    cases w with
    | nil => simp
    | cons b w =>
      have hV := dotList_self_nonneg v
      have hW := dotList_self_nonneg w
      have hIH := ih w
      simp only [dotList_cons]
      rcases eq_or_lt_of_le hW with hW0 | hWpos
      · have hD0 : dotList v w = 0 := by
          nlinarith [sq_nonneg (dotList v w)]
        rw [hD0, ← hW0]
        nlinarith [mul_nonneg hV (mul_self_nonneg b)]
      · nlinarith [sq_nonneg (a * dotList w w - b * dotList v w),
          mul_nonneg (le_of_lt hWpos) (sub_nonneg.mpr hIH),
          mul_nonneg (mul_self_nonneg b) (sub_nonneg.mpr hIH)]

theorem vecNorm_nonneg (v : List Real) : 0 ≤ vecNorm v :=
  Real.sqrt_nonneg _

theorem vecNorm_eq_zero_iff (v : List Real) :
    vecNorm v = 0 ↔ dotList v v = 0 := by
  unfold vecNorm
  rw [Real.sqrt_eq_zero (dotList_self_nonneg v)]

theorem dotList_le_norm_mul (q v : List Real) :
    dotList q v ≤ vecNorm q * vecNorm v := by
  have h1 : dotList q v ≤ |dotList q v| := le_abs_self _
  have h2 : |dotList q v| = Real.sqrt (dotList q v ^ 2) :=
    (Real.sqrt_sq_eq_abs _).symm
  have h3 : Real.sqrt (dotList q v ^ 2) ≤
      Real.sqrt (dotList q q * dotList v v) :=
    Real.sqrt_le_sqrt (dotList_sq_le q v)
  have h4 : Real.sqrt (dotList q q * dotList v v) = vecNorm q * vecNorm v := by
    unfold vecNorm
    exact Real.sqrt_mul (dotList_self_nonneg q) _
  linarith [h1, h2 ▸ h1, h3, h4 ▸ h3, h2.symm ▸ h3]

/-- Every cosine-similarity score the fallback backend produces is at
most 1: the guarded branches return 0 and the division branch is bounded
by Cauchy-Schwarz. -/
theorem _cosine_similarity_le_one (q v : List Real) :
    _cosine_similarity q v ≤ 1 := by
  unfold _cosine_similarity
  split_ifs with h1 h2
  · norm_num
  · push_neg at h2
    obtain ⟨hn1, hn2⟩ := h2
    have p1 : 0 < vecNorm q := lt_of_le_of_ne (vecNorm_nonneg q) (Ne.symm hn1)
    have p2 : 0 < vecNorm v := lt_of_le_of_ne (vecNorm_nonneg v) (Ne.symm hn2)
    rw [div_le_one (mul_pos p1 p2)]
    exact dotList_le_norm_mul q v
  · norm_num

/-- A vector with nonzero self dot product has cosine similarity exactly 1
with itself. -/
theorem _cosine_similarity_self (q : List Real) (h : dotList q q ≠ 0) :
    _cosine_similarity q q = 1 := by
  have hpos : 0 < dotList q q :=
    lt_of_le_of_ne (dotList_self_nonneg q) (Ne.symm h)
  have hn : vecNorm q ≠ 0 := by
    rw [Ne, vecNorm_eq_zero_iff]
    exact h
  unfold _cosine_similarity
  rw [if_pos rfl, if_neg (by push_neg; exact ⟨hn, hn⟩)]
  have hmul : vecNorm q * vecNorm q = dotList q q := by
    unfold vecNorm
    exact Real.mul_self_sqrt (dotList_self_nonneg q)
  rw [hmul, div_self h]

/-- C3: for every pair of vectors of the same dimension, the fallback
similarity score equals `dot(q, v) / (norm q * norm v)` when both norms are
nonzero, and equals 0 when either norm is zero.  The embedded function is
total, so no input raises; the zero-norm guard prevents the division from
ever being taken with a zero denominator, which is how the source avoids
producing NaN on degenerate vectors. -/
theorem claim_C3_cosine_formula (q v : List Real)
    (hlen : q.length = v.length) :
    (vecNorm q ≠ 0 → vecNorm v ≠ 0 →
      _cosine_similarity q v = dotList q v / (vecNorm q * vecNorm v))
    ∧ ((vecNorm q = 0 ∨ vecNorm v = 0) → _cosine_similarity q v = 0) := by
  unfold _cosine_similarity
  rw [if_pos hlen]
  constructor
  · intro h1 h2
    rw [if_neg (by push_neg; exact ⟨h1, h2⟩)]
  · intro h
    rw [if_pos h]

/-- Witness for C3 at the concrete vectors `[1, 0]` and `[0, 1]`. -/
theorem claim_C3_cosine_formula_witness :
    ([1, 0] : List Real).length = ([0, 1] : List Real).length
    ∧ ((vecNorm [1, 0] ≠ 0 → vecNorm [0, 1] ≠ 0 →
        _cosine_similarity [1, 0] [0, 1] =
          dotList [1, 0] [0, 1] / (vecNorm [1, 0] * vecNorm [0, 1]))
      ∧ ((vecNorm [1, 0] = 0 ∨ vecNorm [0, 1] = 0) →
        _cosine_similarity [1, 0] [0, 1] = 0)) :=
  ⟨rfl, claim_C3_cosine_formula [1, 0] [0, 1] rfl⟩

/-- Scored search result as built by the fallback search: the result dict
of lines 277-282 carries exactly the keys `text`, `original_text`,
`filename` and `score`; this structure is its typed form. -/
structure SearchResult where
  text : String
  original_text : String
  filename : String
  score : Real

/-- Value of one field of a result dict: a string or a float. -/
inductive FieldValue where
  | str (s : String)
  | num (x : Real)

/-- Key-value view of the result dict literal of lines 277-282, in source
order.  These four keys are the only keys the dict is built with. -/
noncomputable def SearchResult.toDict (r : SearchResult) :
    List (String × FieldValue) :=
  [("text", FieldValue.str r.text),
   ("original_text", FieldValue.str r.original_text),
   ("filename", FieldValue.str r.filename),
   ("score", FieldValue.num r.score)]

/-- Scoring of one stored document against a query embedding
(lines 276-282). -/
noncomputable def mkSearchResult (q : List Real) (d : DocumentEntry) :
    SearchResult :=
  ⟨d.text, d.original_text, d.filename, _cosine_similarity q d.embedding⟩

/-- Stable insertion into a list sorted by descending key: the new element
goes in front of the first element whose key is not larger.  Together with
`sortDescBy` this models Python `list.sort(key=..., reverse=True)`
(line 288), which is a stable descending sort. -/
noncomputable def insertDescBy {α : Type} (key : α → Real) (x : α) :
    List α → List α
  | [] => [x]
  | y :: ys => if key y ≤ key x then x :: y :: ys else y :: insertDescBy key x ys

/-- Stable descending sort by a real-valued key, modelling
`scored_docs.sort(key=lambda x: x[score-key], reverse=True)` at line 288. -/
noncomputable def sortDescBy {α : Type} (key : α → Real) : List α → List α
  | [] => []
  | x :: xs => insertDescBy key x (sortDescBy key xs)

theorem insertDescBy_perm {α : Type} (key : α → Real) (x : α) (l : List α) :
    (insertDescBy key x l).Perm (x :: l) := by
  induction l with
  | nil => exact List.Perm.refl _
  | cons y ys ih =>
    unfold insertDescBy
    split_ifs with h
    · exact List.Perm.refl _
    · exact (ih.cons y).trans (List.Perm.swap x y ys)

theorem sortDescBy_perm {α : Type} (key : α → Real) (l : List α) :
    (sortDescBy key l).Perm l := by
  induction l with
  | nil => exact List.Perm.refl _
  | cons x xs ih =>
    unfold sortDescBy
    exact (insertDescBy_perm key x (sortDescBy key xs)).trans (ih.cons x)

/-- Inserting an element that was originally before every element of an
already stably sorted list keeps the list stably sorted: descending keys,
and on equal keys the original order relation `R` holds along the list. -/
theorem insertDescBy_pairwise {α : Type} {R : α → α → Prop}
    (key : α → Real) (x : α) (l : List α)
    (hl : l.Pairwise fun a b => key b ≤ key a ∧ (key a = key b → R a b))
    (hx : ∀ y ∈ l, R x y) :
    (insertDescBy key x l).Pairwise
      fun a b => key b ≤ key a ∧ (key a = key b → R a b) := by
  induction l with
  | nil => simp [insertDescBy]
  | cons y ys ih =>
    rw [List.pairwise_cons] at hl
    obtain ⟨hy, hys⟩ := hl
    unfold insertDescBy
    split_ifs with h
    · refine List.Pairwise.cons ?_ (List.Pairwise.cons hy hys)
      intro z hz
      rcases List.mem_cons.mp hz with hzy | hz'
      · subst hzy
        exact ⟨h, fun _ => hx z (List.mem_cons_self _ _)⟩
      · refine ⟨le_trans (hy z hz').1 h, fun _ => hx z (List.mem_cons_of_mem _ hz')⟩
    · refine List.Pairwise.cons ?_ (ih hys fun y' hy' => hx y' (List.mem_cons_of_mem _ hy'))
      intro z hz
      have hz2 : z = x ∨ z ∈ ys :=
        List.mem_cons.mp ((insertDescBy_perm key x ys).mem_iff.mp hz)
      rcases hz2 with hzx | hz'
      · subst hzx
        refine ⟨le_of_not_le h, fun heq => absurd (le_of_eq heq) h⟩
      · exact hy z hz'

/-- The stable sort of a list whose elements stand in relation `R` in
list order is descending in the key, and any two elements with equal keys
keep their original relative order `R`. -/
theorem sortDescBy_pairwise {α : Type} {R : α → α → Prop}
    (key : α → Real) (l : List α) (h : l.Pairwise R) :
    (sortDescBy key l).Pairwise
      fun a b => key b ≤ key a ∧ (key a = key b → R a b) := by
  induction l with
  | nil => simp [sortDescBy]
  | cons x xs ih =>
    rw [List.pairwise_cons] at h
    obtain ⟨hx, hxs⟩ := h
    unfold sortDescBy
    exact insertDescBy_pairwise key x (sortDescBy key xs) (ih hxs)
      fun y hy => hx y ((sortDescBy_perm key xs).mem_iff.mp hy)

theorem map_insertDescBy {α β : Type} (f : α → β) (key : β → Real)
    (x : α) (l : List α) :
    (insertDescBy (fun a => key (f a)) x l).map f =
      insertDescBy key (f x) (l.map f) := by
  induction l with
  | nil => rfl
  | cons y ys ih =>
    by_cases h : key (f y) ≤ key (f x)
    · simp [insertDescBy, h]
    · simp [insertDescBy, h, ih]

theorem map_sortDescBy {α β : Type} (f : α → β) (key : β → Real)
    (l : List α) :
    (sortDescBy (fun a => key (f a)) l).map f = sortDescBy key (l.map f) := by
  induction l with
  | nil => rfl
  | cons x xs ih =>
    simp only [List.map_cons, sortDescBy]
    rw [map_insertDescBy, ih]

/-- The head of a nonempty stably sorted list is a maximum of the list. -/
theorem sortDescBy_head_max {α : Type} (key : α → Real) (l : List α)
    (hne : l ≠ []) :
    ∃ h t, sortDescBy key l = h :: t ∧ h ∈ l ∧ ∀ x ∈ l, key x ≤ key h := by
  have hperm := sortDescBy_perm key l
  have hpw : (sortDescBy key l).Pairwise
      fun a b => key b ≤ key a ∧ (key a = key b → True) :=
    sortDescBy_pairwise key l (List.pairwise_iff_forall_sublist.mpr fun _ => trivial)
  cases hs : sortDescBy key l with
  | nil =>
    rw [hs] at hperm
    exact absurd hperm.symm.eq_nil hne
  | cons h t =>
    rw [hs] at hperm hpw
    rw [List.pairwise_cons] at hpw
    refine ⟨h, t, rfl, hperm.mem_iff.mp (List.mem_cons_self _ _), ?_⟩
    intro x hx
    rcases List.mem_cons.mp (hperm.mem_iff.mpr hx) with hxh | hxt
    · exact le_of_eq (congrArg key hxh)
    · exact (hpw.1 x hxt).1

theorem enumFrom_map_snd {α : Type} (n : Nat) (l : List α) :
    (l.enumFrom n).map Prod.snd = l := by
  induction l generalizing n with
  | nil => rfl
  | cons x xs ih =>
    simp only [List.enumFrom, List.map_cons]
    rw [ih]

theorem enumFrom_pairwise_fst_lt {α : Type} (n : Nat) (l : List α) :
    (l.enumFrom n).Pairwise fun a b => a.1 < b.1 := by
  induction l generalizing n with
  | nil => simp
  | cons x xs ih =>
    simp only [List.enumFrom]
    refine List.Pairwise.cons ?_ (ih (n + 1))
    intro p hp
    have hmem : ∀ m (ys : List α), ∀ q ∈ ys.enumFrom m, m ≤ q.1 := by
      intro m ys
      induction ys generalizing m with
      | nil => simp
      | cons z zs ihz =>
        intro q hq
        simp only [List.enumFrom] at hq
        rcases List.mem_cons.mp hq with hq1 | hq2
        · subst hq1; exact le_refl _
        · exact le_trans (Nat.le_succ m) (ihz (m + 1) q hq2)
    exact Nat.lt_of_succ_le (hmem (n + 1) xs p hp)

/-- `VectorStore._create_fallback_collection` (lines 102-113): installs an
empty collection in memory when absent and saves it to its file. -/
def _create_fallback_collection (st : VectorStore) (collection_name : String) :
    VectorStore :=
  if (st.collections collection_name).isSome then st
  else
    { st with
      collections := updMap st.collections collection_name (some ⟨[]⟩),
      files := updMap st.files collection_name (some ⟨[]⟩) }

/-- Membership-or-load step shared by the fallback search and stats paths
(lines 262-264 and 376-378): a collection missing from memory is loaded
from its file by `_load_collection_from_file` (lines 125-136, inlined here:
the load succeeds exactly when the file exists, installing its contents in
memory); with no file either, the collection does not exist. -/
def lookupOrLoad (st : VectorStore) (collection_name : String) :
    Option FallbackCollection × VectorStore :=
  match st.collections collection_name with
  | some c => (some c, st)
  | none =>
    match st.files collection_name with
    | some c =>
      (some c, { st with collections := updMap st.collections collection_name (some c) })
    | none => (none, st)

/-- Load-or-create step of `_add_documents_fallback` (lines 191-193):
a collection missing from memory is loaded from its file, and created
empty when the file is missing too. -/
def loadOrCreate (st : VectorStore) (collection_name : String) : VectorStore :=
  if (st.collections collection_name).isSome then st
  else
    match st.files collection_name with
    | some c =>
      { st with collections := updMap st.collections collection_name (some c) }
    | none => _create_fallback_collection st collection_name

/-- Document entries built in the loop of lines 195-203: one entry per
input document, in order, each with a fresh id (`uuid.uuid4()` modelled by
the counter), the two text fields, the call-level filename and the
unmodified embedding. -/
def mkEntries (next_id : Nat) (filename : String) :
    List DocumentIn → List DocumentEntry
  | [] => []
  | d :: ds =>
    ⟨toString next_id, d.text, d.original_text, filename, d.embedding⟩ ::
      mkEntries (next_id + 1) filename ds

/-- `VectorStore._add_documents_fallback` (lines 188-210): load or create
the collection, append one entry per input document, persist the result,
return `true`.  The `none` branch mirrors the catch-all handler returning
`false` (lines 208-210); it is unreachable because the load-or-create step
always installs the collection. -/
def _add_documents_fallback (st : VectorStore) (collection_name : String)
    (documents : List DocumentIn) (filename : String) : Bool × VectorStore :=
  let st1 := loadOrCreate st collection_name
  match st1.collections collection_name with
  | some col =>
    let col2 : FallbackCollection :=
      ⟨col.documents ++ mkEntries st1.next_id filename documents⟩
    (true,
      { st1 with
        collections := updMap st1.collections collection_name (some col2),
        files := updMap st1.files collection_name (some col2),
        next_id := st1.next_id + documents.length })
  | none => (false, st1)

/-- Scoring, sorting and truncation part of `_search_documents_fallback`
(lines 266-289), after the membership-or-load step: a falsy query
embedding (`None`, or an empty list) returns `[]` (lines 266-268);
otherwise every stored document is scored with `_cosine_similarity`
(line 276, which never raises, so no document is skipped by the handler at
lines 283-285), the results are sorted by score descending with the stable
Python sort, and the first `top_k` are returned (lines 287-289). -/
noncomputable def searchScore (st : VectorStore) (col : FallbackCollection)
    (query_embedding : Option (List Real)) (top_k : Nat) :
    List SearchResult × VectorStore :=
  match query_embedding with
  | none => ([], st)
  | some [] => ([], st)
  | some (x :: xs) =>
    ((sortDescBy SearchResult.score
        (col.documents.map (mkSearchResult (x :: xs)))).take top_k, st)

/-- `VectorStore._search_documents_fallback` (lines 259-293): when the
collection is neither in memory nor on file the result is `[]`
(lines 262-264); otherwise the scan of `searchScore` runs.  The function
is total: its only caught exceptions are the unreachable per-document
handler and the outer catch-all (lines 291-293). -/
noncomputable def _search_documents_fallback (st : VectorStore)
    (collection_name : String) (query_embedding : Option (List Real))
    (top_k : Nat) : List SearchResult × VectorStore :=
  match lookupOrLoad st collection_name with
  | (some col, st1) => searchScore st1 col query_embedding top_k
  | (none, st1) => ([], st1)

/-- Fallback branch of `VectorStore.delete_collection` (lines 337-350):
drop the in-memory entry and remove the persisted file, then return
`true`; both steps are no-ops when the collection is absent. -/
def _delete_collection_fallback (st : VectorStore) (collection_name : String) :
    Bool × VectorStore :=
  (true,
    { st with
      collections := updMap st.collections collection_name none,
      files := updMap st.files collection_name none })

/-- Fallback branch of `VectorStore.collection_exists` (lines 149-151):
the collection exists when it is in memory or its file exists. -/
def _collection_exists_fallback (st : VectorStore) (collection_name : String) :
    Bool :=
  (st.collections collection_name).isSome || (st.files collection_name).isSome

/-- Statistics record of `VectorStore.get_collection_stats` (fallback
branch, lines 380-385). -/
structure CollectionStats where
  name : String
  num_entities : Nat
  description : String
  storage_type : String

/-- Fallback branch of `VectorStore.get_collection_stats`
(lines 374-388): membership-or-load, then the record with `num_entities`
the length of the documents list; `none` when the collection is absent. -/
def _get_collection_stats_fallback (st : VectorStore)
    (collection_name : String) : Option CollectionStats × VectorStore :=
  match lookupOrLoad st collection_name with
  | (some col, st1) =>
    (some ⟨collection_name, col.documents.length, "Fallback vector storage", "file"⟩, st1)
  | (none, st1) => (none, st1)

/-- Outcome of the try block around one primary-backend (Milvus) call:
the external service either lets the block return a value or raises. -/
inductive PrimaryOutcome (α : Type) where
  | raise
  | ok (value : α)

/-- `VectorStore.add_documents` (lines 153-186): with Milvus available the
primary insert either succeeds (returns `true`, nothing reaches the
fallback store) or raises, which clears `milvus_available` and falls
through to the fallback path; with Milvus unavailable the fallback path
runs directly. -/
def add_documents (st : VectorStore) (session_id : String)
    (documents : List DocumentIn) (filename : String)
    (primary : PrimaryOutcome Unit) : Bool × VectorStore :=
  let collection_name := _format_collection_name session_id
  if st.milvus_available then
    match primary with
    | .ok _ => (true, st)
    | .raise =>
      _add_documents_fallback { st with milvus_available := false }
        collection_name documents filename
  else _add_documents_fallback st collection_name documents filename

/-- `VectorStore.search_documents` (lines 212-257): with Milvus available
the primary search either returns its result list or raises, which clears
`milvus_available` and falls through to the fallback search. -/
noncomputable def search_documents (st : VectorStore) (session_id : String)
    (query_embedding : Option (List Real)) (top_k : Nat)
    (primary : PrimaryOutcome (List SearchResult)) :
    List SearchResult × VectorStore :=
  let collection_name := _format_collection_name session_id
  if st.milvus_available then
    match primary with
    | .ok r => (r, st)
    | .raise =>
      _search_documents_fallback { st with milvus_available := false }
        collection_name query_embedding top_k
  else _search_documents_fallback st collection_name query_embedding top_k

/-- `VectorStore.delete_collection` (lines 324-350): the primary drop is
attempted first when Milvus is available (an exception clears
`milvus_available`); the fallback deletion then always runs and its
`true` is returned. -/
def delete_collection (st : VectorStore) (session_id : String)
    (primary : PrimaryOutcome Unit) : Bool × VectorStore :=
  let collection_name := _format_collection_name session_id
  let st1 :=
    if st.milvus_available then
      match primary with
      | .ok _ => st
      | .raise => { st with milvus_available := false }
    else st
  _delete_collection_fallback st1 collection_name

/-- `VectorStore.collection_exists` (lines 138-151): the primary check is
used when Milvus is available; an exception clears `milvus_available` and
the fallback check runs. -/
def collection_exists (st : VectorStore) (session_id : String)
    (primary : PrimaryOutcome Bool) : Bool × VectorStore :=
  let collection_name := _format_collection_name session_id
  if st.milvus_available then
    match primary with
    | .ok b => (b, st)
    | .raise =>
      let st1 := { st with milvus_available := false }
      (_collection_exists_fallback st1 collection_name, st1)
  else (_collection_exists_fallback st collection_name, st)

/-- `VectorStore.get_collection_stats` (lines 352-388): the primary stats
are used when Milvus is available; an exception clears `milvus_available`
and the fallback stats run. -/
def get_collection_stats (st : VectorStore) (session_id : String)
    (primary : PrimaryOutcome (Option CollectionStats)) :
    Option CollectionStats × VectorStore :=
  let collection_name := _format_collection_name session_id
  if st.milvus_available then
    match primary with
    | .ok r => (r, st)
    | .raise =>
      _get_collection_stats_fallback { st with milvus_available := false }
        collection_name
  else _get_collection_stats_fallback st collection_name

/-- One public operation of the engine together with the outcome of its
primary-backend attempt. -/
inductive OpCall where
  | addOp (session_id : String) (documents : List DocumentIn)
      (filename : String) (primary : PrimaryOutcome Unit)
  | searchOp (session_id : String) (query_embedding : Option (List Real))
      (top_k : Nat) (primary : PrimaryOutcome (List SearchResult))
  | deleteOp (session_id : String) (primary : PrimaryOutcome Unit)
  | existsOp (session_id : String) (primary : PrimaryOutcome Bool)
  | statsOp (session_id : String)
      (primary : PrimaryOutcome (Option CollectionStats))

/-- State transition of one public operation. -/
noncomputable def applyOp (st : VectorStore) : OpCall → VectorStore
  | .addOp s d f p => (add_documents st s d f p).2
  | .searchOp s q k p => (search_documents st s q k p).2
  | .deleteOp s p => (delete_collection st s p).2
  | .existsOp s p => (collection_exists st s p).2
  | .statsOp s p => (get_collection_stats st s p).2

/-- State after a sequence of public operations on one engine instance. -/
noncomputable def runOps (st : VectorStore) (ops : List OpCall) : VectorStore :=
  ops.foldl applyOp st

@[simp] theorem updMap_same (m : String → Option FallbackCollection)
    (name : String) (v : Option FallbackCollection) :
    updMap m name v name = v := by
  simp [updMap]

theorem loadOrCreate_collections_isSome (st : VectorStore) (name : String) :
    ∃ col, (loadOrCreate st name).collections name = some col := by
  cases h : st.collections name with
  | some c => exact ⟨c, by simp [loadOrCreate, h]⟩
  | none =>
    cases hf : st.files name with
    | some c => exact ⟨c, by simp [loadOrCreate, h, hf]⟩
    | none =>
      exact ⟨⟨[]⟩, by simp [loadOrCreate, _create_fallback_collection, h, hf]⟩

theorem loadOrCreate_milvus (st : VectorStore) (name : String) :
    (loadOrCreate st name).milvus_available = st.milvus_available := by
  cases h : st.collections name <;> cases hf : st.files name <;>
    simp [loadOrCreate, _create_fallback_collection, h, hf]

theorem lookupOrLoad_milvus (st : VectorStore) (name : String) :
    ((lookupOrLoad st name).2).milvus_available = st.milvus_available := by
  cases h : st.collections name <;> cases hf : st.files name <;>
    simp [lookupOrLoad, h, hf]

/-- Unfolds the fallback insert: the collection resolved by the
load-or-create step always exists, the whole batch is appended behind its
documents, both the in-memory entry and the file are overwritten with the
grown collection, and the call returns `true`. -/
theorem add_fallback_spec (st : VectorStore) (name : String)
    (docs : List DocumentIn) (fn : String) :
    ∃ col, (loadOrCreate st name).collections name = some col ∧
      _add_documents_fallback st name docs fn =
        (true,
          { loadOrCreate st name with
            collections := updMap (loadOrCreate st name).collections name
              (some ⟨col.documents ++ mkEntries (loadOrCreate st name).next_id fn docs⟩),
            files := updMap (loadOrCreate st name).files name
              (some ⟨col.documents ++ mkEntries (loadOrCreate st name).next_id fn docs⟩),
            next_id := (loadOrCreate st name).next_id + docs.length }) := by
  obtain ⟨col, hcol⟩ := loadOrCreate_collections_isSome st name
  refine ⟨col, hcol, ?_⟩
  simp only [_add_documents_fallback, hcol]

theorem _add_documents_fallback_milvus (st : VectorStore) (name : String)
    (docs : List DocumentIn) (fn : String) :
    ((_add_documents_fallback st name docs fn).2).milvus_available =
      st.milvus_available := by
  obtain ⟨col, hcol, heq⟩ := add_fallback_spec st name docs fn
  rw [heq]
  exact loadOrCreate_milvus st name

theorem searchScore_snd (st : VectorStore) (col : FallbackCollection)
    (qe : Option (List Real)) (k : Nat) : (searchScore st col qe k).2 = st := by
  cases qe with
  | none => rfl
  | some q => cases q with
    | nil => rfl
    | cons x xs => rfl

theorem _search_documents_fallback_state (st : VectorStore) (name : String)
    (qe : Option (List Real)) (k : Nat) :
    (_search_documents_fallback st name qe k).2 = (lookupOrLoad st name).2 := by
  unfold _search_documents_fallback
  cases h : lookupOrLoad st name with
  | mk o st1 =>
    cases o with
    | some col => simp [searchScore_snd]
    | none => simp

theorem _get_collection_stats_fallback_state (st : VectorStore)
    (name : String) :
    (_get_collection_stats_fallback st name).2 = (lookupOrLoad st name).2 := by
  unfold _get_collection_stats_fallback
  cases h : lookupOrLoad st name with
  | mk o st1 =>
    cases o with
    | some col => simp
    | none => simp

/-- No public operation ever sets the `milvus_available` flag back: once
the flag is down, it stays down for every operation. -/
theorem applyOp_milvus_false (st : VectorStore) (op : OpCall)
    (h : st.milvus_available = false) :
    (applyOp st op).milvus_available = false := by
  cases op with
  | addOp s d f p =>
    simp only [applyOp, add_documents, h]
    simp only [Bool.false_eq_true, if_false]
    rw [_add_documents_fallback_milvus]
    exact h
  | searchOp s q k p =>
    simp only [applyOp, search_documents, h]
    simp only [Bool.false_eq_true, if_false]
    rw [_search_documents_fallback_state, lookupOrLoad_milvus]
    exact h
  | deleteOp s p =>
    simp only [applyOp, delete_collection, h, _delete_collection_fallback]
    simp only [Bool.false_eq_true, if_false]
    exact h
  | existsOp s p =>
    simp only [applyOp, collection_exists, h]
    simp only [Bool.false_eq_true, if_false]
    exact h
  | statsOp s p =>
    simp only [applyOp, get_collection_stats, h]
    simp only [Bool.false_eq_true, if_false]
    rw [_get_collection_stats_fallback_state, lookupOrLoad_milvus]
    exact h

theorem runOps_milvus_false (ops : List OpCall) (st : VectorStore)
    (h : st.milvus_available = false) :
    (runOps st ops).milvus_available = false := by
  induction ops generalizing st with
  | nil => exact h
  | cons op ops ih =>
    simp only [runOps, List.foldl_cons]
    exact ih (applyOp st op) (applyOp_milvus_false st op h)

theorem mkEntries_length (nid : Nat) (fn : String) (docs : List DocumentIn) :
    (mkEntries nid fn docs).length = docs.length := by
  induction docs generalizing nid with
  | nil => rfl
  | cons d ds ih => simp [mkEntries, ih]

theorem mkEntries_map_embedding (nid : Nat) (fn : String)
    (docs : List DocumentIn) :
    (mkEntries nid fn docs).map DocumentEntry.embedding =
      docs.map DocumentIn.embedding := by
  induction docs generalizing nid with
  | nil => rfl
  | cons d ds ih => simp [mkEntries, ih]

theorem mkEntries_mem_embedding (docs : List DocumentIn) (d : DocumentIn)
    (hd : d ∈ docs) (nid : Nat) (fn : String) :
    ∃ e ∈ mkEntries nid fn docs, e.embedding = d.embedding := by
  induction docs generalizing nid with
  | nil => exact absurd hd (List.not_mem_nil d)
  | cons d0 ds ih =>
    rcases List.mem_cons.mp hd with hdd | hds
    · subst hdd
      exact ⟨_, List.mem_cons_self _ _, rfl⟩
    · obtain ⟨e, he, hee⟩ := ih hds (nid + 1)
      exact ⟨e, List.mem_cons_of_mem _ he, hee⟩

theorem _add_documents_fallback_fst (st : VectorStore) (name : String)
    (docs : List DocumentIn) (fn : String) :
    (_add_documents_fallback st name docs fn).1 = true := by
  obtain ⟨col, hcol, heq⟩ := add_fallback_spec st name docs fn
  rw [heq]

/-- Shape of a nonempty-query fallback search on a resolved collection:
sort the scored documents descending and keep the first `top_k`. -/
theorem search_fallback_result_eq (st : VectorStore) (name : String)
    (col : FallbackCollection) (x : Real) (xs : List Real) (top_k : Nat)
    (hcol : (lookupOrLoad st name).1 = some col) :
    (_search_documents_fallback st name (some (x :: xs)) top_k).1 =
      (sortDescBy SearchResult.score
        (col.documents.map (mkSearchResult (x :: xs)))).take top_k := by
  unfold _search_documents_fallback
  cases hl : lookupOrLoad st name with
  | mk o st1 =>
    rw [hl] at hcol
    cases o with
    | none => simp at hcol
    | some c =>
      have hc : c = col := by simpa using hcol
      subst hc
      simp [searchScore]

/-- C6: `delete_collection` returns `true` whether or not the collection
existed, twice in a row returns `true` both times, and the state after the
first call holds neither an in-memory entry nor a persisted file for the
collection, so the second call starts from a state with no such
collection.  This holds for every store state and every primary-backend
outcome because the fallback deletion always runs and always succeeds. -/
theorem claim_C6_delete_idempotent (st : VectorStore) (sid : String)
    (p1 p2 : PrimaryOutcome Unit) :
    (delete_collection st sid p1).1 = true
    ∧ (delete_collection (delete_collection st sid p1).2 sid p2).1 = true
    ∧ (delete_collection st sid p1).2.collections
        (_format_collection_name sid) = none
    ∧ (delete_collection st sid p1).2.files
        (_format_collection_name sid) = none := by
  refine ⟨rfl, rfl, ?_, ?_⟩ <;>
    simp [delete_collection, _delete_collection_fallback, updMap]

/-- C10: on the fallback backend, right after `delete_collection` the
in-memory entry and the persisted file of the derived collection name are
both gone and `collection_exists` reports `false`; this holds for every
prior state, in particular after deleting a collection that was never
created. -/
theorem claim_C10_delete_then_not_exists (st : VectorStore) (sid : String)
    (p1 : PrimaryOutcome Unit) (p2 : PrimaryOutcome Bool)
    (h : st.milvus_available = false) :
    (delete_collection st sid p1).2.collections
        (_format_collection_name sid) = none
    ∧ (delete_collection st sid p1).2.files
        (_format_collection_name sid) = none
    ∧ (collection_exists (delete_collection st sid p1).2 sid p2).1 = false := by
  refine ⟨?_, ?_, ?_⟩ <;>
    simp [delete_collection, _delete_collection_fallback, collection_exists,
      _collection_exists_fallback, updMap, h]

/-- Witness for C10 from the empty store. -/
theorem claim_C10_delete_then_not_exists_witness :
    (⟨false, fun _ => none, fun _ => none, 0⟩ : VectorStore).milvus_available = false
    ∧ ((delete_collection ⟨false, fun _ => none, fun _ => none, 0⟩ "a"
          (PrimaryOutcome.ok ())).2.collections (_format_collection_name "a") = none
      ∧ (delete_collection ⟨false, fun _ => none, fun _ => none, 0⟩ "a"
          (PrimaryOutcome.ok ())).2.files (_format_collection_name "a") = none
      ∧ (collection_exists (delete_collection ⟨false, fun _ => none, fun _ => none, 0⟩ "a"
          (PrimaryOutcome.ok ())).2 "a" (PrimaryOutcome.ok true)).1 = false) :=
  ⟨rfl, claim_C10_delete_then_not_exists _ "a" (PrimaryOutcome.ok ())
    (PrimaryOutcome.ok true) rfl⟩

/-- C4: with the fallback backend active, a search for a session whose
collection is neither in memory nor on file returns the empty list for
every query, and a search whose query embedding could not be produced
(the provider returned `None`) returns the empty list in every state.
The embedded search is a total function, so no such call raises. -/
theorem claim_C4_search_empty_cases (st : VectorStore) (sid : String)
    (top_k : Nat) (p : PrimaryOutcome (List SearchResult))
    (h : st.milvus_available = false) :
    ((st.collections (_format_collection_name sid) = none →
        st.files (_format_collection_name sid) = none →
        ∀ qe, (search_documents st sid qe top_k p).1 = [])
    ∧ (search_documents st sid none top_k p).1 = []) := by
  constructor
  · intro h1 h2 qe
    simp [search_documents, h, _search_documents_fallback, lookupOrLoad, h1, h2]
  · simp only [search_documents, h, Bool.false_eq_true, if_false]
    unfold _search_documents_fallback
    cases hl : lookupOrLoad st (_format_collection_name sid) with
    | mk o st1 => cases o <;> simp [searchScore]

/-- Witness for C4 from the empty store. -/
theorem claim_C4_search_empty_cases_witness :
    (⟨false, fun _ => none, fun _ => none, 0⟩ : VectorStore).milvus_available = false
    ∧ (((⟨false, fun _ => none, fun _ => none, 0⟩ : VectorStore).collections
          (_format_collection_name "a") = none →
        (⟨false, fun _ => none, fun _ => none, 0⟩ : VectorStore).files
          (_format_collection_name "a") = none →
        ∀ qe, (search_documents ⟨false, fun _ => none, fun _ => none, 0⟩ "a" qe 5
          PrimaryOutcome.raise).1 = [])
      ∧ (search_documents ⟨false, fun _ => none, fun _ => none, 0⟩ "a" none 5
          PrimaryOutcome.raise).1 = []) :=
  ⟨rfl, claim_C4_search_empty_cases _ "a" 5 PrimaryOutcome.raise rfl⟩

/-- C7: failover is sticky and retried once.  From a state with the
primary reachable, a raising `add_documents` or `search_documents` equals
the corresponding fallback operation run on the state with
`milvus_available` cleared (the failing operation is attempted exactly
once against the fallback before returning), the flag is down afterwards,
and no subsequent sequence of public operations ever brings the flag back
up for the lifetime of the instance. -/
theorem claim_C7_sticky_failover (st : VectorStore) (sid fn : String)
    (docs : List DocumentIn) (qe : Option (List Real)) (top_k : Nat)
    (ops : List OpCall) (h : st.milvus_available = true) :
    add_documents st sid docs fn PrimaryOutcome.raise =
      _add_documents_fallback { st with milvus_available := false }
        (_format_collection_name sid) docs fn
    ∧ search_documents st sid qe top_k PrimaryOutcome.raise =
      _search_documents_fallback { st with milvus_available := false }
        (_format_collection_name sid) qe top_k
    ∧ (add_documents st sid docs fn PrimaryOutcome.raise).2.milvus_available = false
    ∧ (runOps { st with milvus_available := false } ops).milvus_available = false := by
  refine ⟨by simp [add_documents, h], by simp [search_documents, h], ?_,
    runOps_milvus_false ops _ rfl⟩
  simp only [add_documents, h, if_true]
  rw [_add_documents_fallback_milvus]

/-- Witness for C7 from a store with the primary reachable. -/
theorem claim_C7_sticky_failover_witness :
    (⟨true, fun _ => none, fun _ => none, 0⟩ : VectorStore).milvus_available = true
    ∧ (add_documents ⟨true, fun _ => none, fun _ => none, 0⟩ "a" [] "f"
          PrimaryOutcome.raise =
        _add_documents_fallback
          { (⟨true, fun _ => none, fun _ => none, 0⟩ : VectorStore) with
            milvus_available := false } (_format_collection_name "a") [] "f"
      ∧ search_documents ⟨true, fun _ => none, fun _ => none, 0⟩ "a" none 5
          PrimaryOutcome.raise =
        _search_documents_fallback
          { (⟨true, fun _ => none, fun _ => none, 0⟩ : VectorStore) with
            milvus_available := false } (_format_collection_name "a") none 5
      ∧ (add_documents ⟨true, fun _ => none, fun _ => none, 0⟩ "a" [] "f"
          PrimaryOutcome.raise).2.milvus_available = false
      ∧ (runOps { (⟨true, fun _ => none, fun _ => none, 0⟩ : VectorStore) with
            milvus_available := false } []).milvus_available = false) :=
  ⟨rfl, claim_C7_sticky_failover _ "a" "f" [] none 5 [] rfl⟩

/-- C2: a fallback search over a resolved collection with a produced
(nonempty) query embedding returns the first `top_k` elements of a stable
descending sort of the scored documents: there is a scored,
insertion-position-decorated permutation `s` of the collection whose
scores are descending, whose equal-score entries keep their insertion
order (earlier inserted first), and whose first `top_k` fragments are the
returned list. -/
theorem claim_C2_search_top_k_sorted_stable (st : VectorStore)
    (name : String) (col : FallbackCollection) (q : List Real) (top_k : Nat)
    (hcol : (lookupOrLoad st name).1 = some col) (hq : q ≠ []) :
    ∃ s : List (Nat × SearchResult),
      s.Perm ((col.documents.enumFrom 0).map fun p => (p.1, mkSearchResult q p.2))
      ∧ (_search_documents_fallback st name (some q) top_k).1 =
          (s.map Prod.snd).take top_k
      ∧ s.Pairwise fun a b =>
          b.2.score ≤ a.2.score ∧ (a.2.score = b.2.score → a.1 < b.1) := by
  obtain ⟨x, xs, rfl⟩ : ∃ x xs, q = x :: xs := by
    cases q with
    | nil => exact absurd rfl hq
    | cons a b => exact ⟨a, b, rfl⟩
  refine ⟨sortDescBy (fun p => SearchResult.score (Prod.snd p))
    ((col.documents.enumFrom 0).map fun p => (p.1, mkSearchResult (x :: xs) p.2)),
    sortDescBy_perm _ _, ?_, ?_⟩
  · rw [search_fallback_result_eq st name col x xs top_k hcol]
    rw [map_sortDescBy Prod.snd SearchResult.score]
    congr 2
    rw [List.map_map]
    have hsnd : (Prod.snd ∘ fun p : Nat × DocumentEntry =>
        (p.1, mkSearchResult (x :: xs) p.2)) =
        fun p : Nat × DocumentEntry => mkSearchResult (x :: xs) p.2 := rfl
    rw [hsnd]
    have hcomp : (fun p : Nat × DocumentEntry => mkSearchResult (x :: xs) p.2) =
        mkSearchResult (x :: xs) ∘ Prod.snd := rfl
    rw [hcomp, ← List.map_map, enumFrom_map_snd]
  · have hpw0 : ((col.documents.enumFrom 0).map
        fun p => (p.1, mkSearchResult (x :: xs) p.2)).Pairwise
        fun a b => a.1 < b.1 :=
      (enumFrom_pairwise_fst_lt 0 col.documents).map _ fun a b hab => hab
    exact sortDescBy_pairwise _ _ hpw0

def c9Entry : DocumentEntry := ⟨"0", "t", "o", "f", [1]⟩

def c9Col : FallbackCollection := ⟨[c9Entry]⟩

def c9State : VectorStore :=
  ⟨false, fun n => if n = "sess_a" then some c9Col else none, fun _ => none, 1⟩

/-- Witness for C2 on a one-document store. -/
theorem claim_C2_search_top_k_sorted_stable_witness :
    (lookupOrLoad c9State "sess_a").1 = some c9Col ∧ ([1] : List Real) ≠ []
    ∧ ∃ s : List (Nat × SearchResult),
        s.Perm ((c9Col.documents.enumFrom 0).map fun p => (p.1, mkSearchResult [1] p.2))
        ∧ (_search_documents_fallback c9State "sess_a" (some [1]) 5).1 =
            (s.map Prod.snd).take 5
        ∧ s.Pairwise fun a b =>
            b.2.score ≤ a.2.score ∧ (a.2.score = b.2.score → a.1 < b.1) :=
  ⟨by simp [lookupOrLoad, c9State], by simp,
    claim_C2_search_top_k_sorted_stable c9State "sess_a" c9Col [1] 5
      (by simp [lookupOrLoad, c9State]) (by simp)⟩

/-- Concrete evaluation of the fallback search on the one-document
store. -/
theorem c9State_search_eval :
    (_search_documents_fallback c9State "sess_a" (some [1]) 5).1 =
      [⟨"t", "o", "f", 1⟩] := by
  have h1 : dotList [(1 : Real)] [(1 : Real)] = 1 := by
    norm_num [dotList]
  norm_num [_search_documents_fallback, lookupOrLoad, c9State, c9Col, c9Entry,
    searchScore, sortDescBy, insertDescBy, mkSearchResult, _cosine_similarity,
    vecNorm, h1, Real.sqrt_one]

/-- C9 counterexample: on a concrete one-document store, the fallback
search returns a result whose dict has no `id` key and no `embedding` key,
refuting the claim that each returned element carries the complete stored
Fragment including `id` and `embedding`. -/
theorem claim_C9_counterexample :
    (_search_documents_fallback c9State "sess_a" (some [1]) 5).1 =
      [⟨"t", "o", "f", 1⟩]
    ∧ List.lookup "id" (SearchResult.toDict ⟨"t", "o", "f", 1⟩) = none
    ∧ List.lookup "embedding" (SearchResult.toDict ⟨"t", "o", "f", 1⟩) = none :=
  ⟨c9State_search_eval, by simp [SearchResult.toDict, List.lookup],
    by simp [SearchResult.toDict, List.lookup]⟩

/-- C9 amended: every element returned by the fallback search is built
from one stored document of the collection, carrying that document's
`text`, `original_text` and `filename` together with the score, and its
result dict has exactly the keys `text`, `original_text`, `filename` and
`score`; in particular the stored `id` and `embedding` are not included. -/
theorem claim_C9_amended_result_fields (st : VectorStore) (name : String)
    (col : FallbackCollection) (q : List Real) (top_k : Nat)
    (hcol : (lookupOrLoad st name).1 = some col) (hq : q ≠ [])
    (r : SearchResult)
    (hr : r ∈ (_search_documents_fallback st name (some q) top_k).1) :
    (∃ d ∈ col.documents, r = mkSearchResult q d)
    ∧ r.toDict.map Prod.fst = ["text", "original_text", "filename", "score"] := by
  obtain ⟨x, xs, rfl⟩ : ∃ x xs, q = x :: xs := by
    cases q with
    | nil => exact absurd rfl hq
    | cons a b => exact ⟨a, b, rfl⟩
  rw [search_fallback_result_eq st name col x xs top_k hcol] at hr
  have hr1 : r ∈ sortDescBy SearchResult.score
      (col.documents.map (mkSearchResult (x :: xs))) :=
    List.mem_of_mem_take hr
  have hr2 : r ∈ col.documents.map (mkSearchResult (x :: xs)) :=
    (sortDescBy_perm _ _).mem_iff.mp hr1
  obtain ⟨d, hd, rfl⟩ := List.mem_map.mp hr2
  exact ⟨⟨d, hd, rfl⟩, by simp [SearchResult.toDict]⟩

/-- Witness for the amended C9 on a one-document store. -/
theorem claim_C9_amended_result_fields_witness :
    (lookupOrLoad c9State "sess_a").1 = some c9Col ∧ ([1] : List Real) ≠ []
    ∧ (⟨"t", "o", "f", 1⟩ : SearchResult) ∈
        (_search_documents_fallback c9State "sess_a" (some [1]) 5).1
    ∧ ((∃ d ∈ c9Col.documents, (⟨"t", "o", "f", 1⟩ : SearchResult) =
          mkSearchResult [1] d)
      ∧ (SearchResult.toDict ⟨"t", "o", "f", 1⟩).map Prod.fst =
          ["text", "original_text", "filename", "score"]) := by
  have hcol : (lookupOrLoad c9State "sess_a").1 = some c9Col := by
    simp [lookupOrLoad, c9State]
  have hmem : (⟨"t", "o", "f", 1⟩ : SearchResult) ∈
      (_search_documents_fallback c9State "sess_a" (some [1]) 5).1 := by
    rw [c9State_search_eval]
    exact List.mem_singleton.mpr rfl
  exact ⟨hcol, by simp, hmem,
    claim_C9_amended_result_fields c9State "sess_a" c9Col [1] 5 hcol (by simp)
      ⟨"t", "o", "f", 1⟩ hmem⟩

def emptyState : VectorStore := ⟨false, fun _ => none, fun _ => none, 0⟩

def badDoc : DocumentIn := ⟨"t", "o", [1, 0]⟩

/-- C1 counterexample: a batch holding a fragment whose embedding has
dimension 2, not 768, is not rejected: `add_documents` returns `true` and
the fragment, with its wrong-dimension embedding, ends up stored in the
collection.  No validation error exists anywhere on this path. -/
theorem claim_C1_counterexample :
    (add_documents emptyState "s" [badDoc] "f" (PrimaryOutcome.ok ())).1 = true
    ∧ ((add_documents emptyState "s" [badDoc] "f"
          (PrimaryOutcome.ok ())).2.collections "sess_s").map
        (fun c => c.documents.map DocumentEntry.embedding) = some [[1, 0]]
    ∧ badDoc.embedding.length ≠ 768 := by
  have hname : _format_collection_name "s" = "sess_s" := by decide
  refine ⟨?_, ?_, by simp [badDoc]⟩ <;>
    simp [add_documents, emptyState, badDoc, hname, _add_documents_fallback,
      loadOrCreate, _create_fallback_collection, mkEntries, updMap]

/-- C1 amended: `add_documents` performs no embedding-dimension
validation.  On the fallback backend every batch is accepted whole: the
call returns `true` and the stored collection is the previously resolved
collection extended by one entry per input fragment, each keeping its
embedding unchanged, whatever its dimension.  (A primary-side insert
error is handled by failover to the fallback, not by an immediate
rejection.) -/
theorem claim_C1_amended_no_dimension_validation (st : VectorStore)
    (sid fn : String) (docs : List DocumentIn) (p : PrimaryOutcome Unit)
    (hmil : st.milvus_available = false) :
    (add_documents st sid docs fn p).1 = true
    ∧ ∃ col pre,
        (loadOrCreate st (_format_collection_name sid)).collections
          (_format_collection_name sid) = some pre
        ∧ (add_documents st sid docs fn p).2.collections
            (_format_collection_name sid) = some col
        ∧ col.documents.map DocumentEntry.embedding =
            pre.documents.map DocumentEntry.embedding ++
              docs.map DocumentIn.embedding := by
  have hadd : add_documents st sid docs fn p =
      _add_documents_fallback st (_format_collection_name sid) docs fn := by
    simp [add_documents, hmil]
  obtain ⟨pre, hpre, heq⟩ :=
    add_fallback_spec st (_format_collection_name sid) docs fn
  rw [hadd, heq]
  refine ⟨rfl,
    ⟨pre.documents ++
      mkEntries (loadOrCreate st (_format_collection_name sid)).next_id fn docs⟩,
    pre, hpre, ?_, ?_⟩
  · simp [updMap]
  · simp [mkEntries_map_embedding]

/-- Witness for the amended C1 from the empty store. -/
theorem claim_C1_amended_no_dimension_validation_witness :
    emptyState.milvus_available = false
    ∧ ((add_documents emptyState "s" [badDoc] "f" (PrimaryOutcome.ok ())).1 = true
      ∧ ∃ col pre,
          (loadOrCreate emptyState (_format_collection_name "s")).collections
            (_format_collection_name "s") = some pre
          ∧ (add_documents emptyState "s" [badDoc] "f"
              (PrimaryOutcome.ok ())).2.collections
              (_format_collection_name "s") = some col
          ∧ col.documents.map DocumentEntry.embedding =
              pre.documents.map DocumentEntry.embedding ++
                [badDoc].map DocumentIn.embedding) :=
  ⟨rfl, claim_C1_amended_no_dimension_validation emptyState "s" "f" [badDoc]
    (PrimaryOutcome.ok ()) rfl⟩

/-- C5 amended: for a batch of uniform dimension containing a fragment
whose (nonzero) embedding equals the query, `add_documents` on the
fallback backend succeeds and the following search returns a nonempty
list whose first result has score exactly 1 (in the real-number model of
float arithmetic).  The queried fragment itself need not be the first
result: an earlier-inserted fragment with the same (or positively
parallel) embedding also scores 1 and wins the tie. -/
theorem claim_C5_amended_exact_match_top_score (st : VectorStore)
    (name fn : String) (docs : List DocumentIn) (q : List Real)
    (top_k dim : Nat)
    (hdim : ∀ d ∈ docs, d.embedding.length = dim)
    (hq : ∃ d ∈ docs, d.embedding = q)
    (hnz : dotList q q ≠ 0) (hk : 1 ≤ top_k) :
    (_add_documents_fallback st name docs fn).1 = true
    ∧ ∃ r rest,
        (_search_documents_fallback (_add_documents_fallback st name docs fn).2
          name (some q) top_k).1 = r :: rest
        ∧ r.score = 1 := by
  obtain ⟨col, hcol, heq⟩ := add_fallback_spec st name docs fn
  have hqne : q ≠ [] := by
    intro h0
    rw [h0] at hnz
    exact hnz (by simp)
  obtain ⟨d0, hd0, hd0q⟩ := hq
  obtain ⟨x, xs, rfl⟩ : ∃ x xs, q = x :: xs := by
    cases q with
    | nil => exact absurd rfl hqne
    | cons a b => exact ⟨a, b, rfl⟩
  refine ⟨by rw [heq], ?_⟩
  rw [heq]
  have hlook : (lookupOrLoad
      { loadOrCreate st name with
        collections := updMap (loadOrCreate st name).collections name
          (some ⟨col.documents ++ mkEntries (loadOrCreate st name).next_id fn docs⟩),
        files := updMap (loadOrCreate st name).files name
          (some ⟨col.documents ++ mkEntries (loadOrCreate st name).next_id fn docs⟩),
        next_id := (loadOrCreate st name).next_id + docs.length } name).1 =
      some ⟨col.documents ++ mkEntries (loadOrCreate st name).next_id fn docs⟩ := by
    simp [lookupOrLoad, updMap]
  rw [search_fallback_result_eq _ name _ x xs top_k hlook]
  have hmem1 : ∃ r0 ∈ (col.documents ++
      mkEntries (loadOrCreate st name).next_id fn docs).map
        (mkSearchResult (x :: xs)), r0.score = 1 := by
    obtain ⟨e, he, hee⟩ :=
      mkEntries_mem_embedding docs d0 hd0 (loadOrCreate st name).next_id fn
    refine ⟨mkSearchResult (x :: xs) e,
      List.mem_map_of_mem _ (List.mem_append_right col.documents he), ?_⟩
    show _cosine_similarity (x :: xs) e.embedding = 1
    rw [hee, hd0q]
    exact _cosine_similarity_self _ hnz
  obtain ⟨r0, hr0, hr0s⟩ := hmem1
  have hne : (col.documents ++
      mkEntries (loadOrCreate st name).next_id fn docs).map
        (mkSearchResult (x :: xs)) ≠ [] := List.ne_nil_of_mem hr0
  obtain ⟨hd, tl, hsort, hhdmem, hmax⟩ :=
    sortDescBy_head_max SearchResult.score _ hne
  have hle : hd.score ≤ 1 := by
    obtain ⟨dd, hdd, hrfl⟩ := List.mem_map.mp hhdmem
    rw [← hrfl]
    exact _cosine_similarity_le_one _ _
  have hge : (1 : Real) ≤ hd.score := by
    calc (1 : Real) = r0.score := hr0s.symm
    _ ≤ hd.score := hmax r0 hr0
  obtain ⟨k2, rfl⟩ : ∃ k2, top_k = k2 + 1 := ⟨top_k - 1, by omega⟩
  refine ⟨hd, tl.take k2, ?_, le_antisymm hle hge⟩
  rw [hsort]
  rfl

def catDoc : DocumentIn := ⟨"cats", "cats", [1, 0]⟩

def dogDoc : DocumentIn := ⟨"dogs", "dogs", [1, 0]⟩

def c5State : VectorStore :=
  (_add_documents_fallback emptyState "sess_s" [catDoc, dogDoc] "f").2

/-- C5 counterexample: two fragments share the embedding `[1, 0]`; the
query equals the embedding of the later-inserted `dogs` fragment, yet the
search returns the earlier-inserted `cats` fragment first (both score 1
and the stable sort keeps insertion order), so the queried fragment is
not returned first. -/
theorem claim_C5_counterexample :
    (_search_documents_fallback c5State "sess_s" (some [1, 0]) 5).1.map
      SearchResult.text = ["cats", "dogs"]
    ∧ dogDoc.embedding = [1, 0]
    ∧ catDoc.text ≠ dogDoc.text := by
  refine ⟨?_, rfl, by simp [catDoc, dogDoc]⟩
  have h1 : dotList [(1 : Real), 0] [(1 : Real), 0] = 1 := by
    norm_num [dotList]
  norm_num [c5State, emptyState, catDoc, dogDoc, _add_documents_fallback,
    loadOrCreate, _create_fallback_collection, mkEntries, updMap,
    _search_documents_fallback, lookupOrLoad, searchScore, sortDescBy,
    insertDescBy, mkSearchResult, _cosine_similarity, vecNorm, h1,
    Real.sqrt_one]

/-- Witness for the amended C5 on a one-fragment batch. -/
theorem claim_C5_amended_exact_match_top_score_witness :
    (∀ d ∈ [catDoc], d.embedding.length = 2)
    ∧ (∃ d ∈ [catDoc], d.embedding = [1, 0])
    ∧ dotList [1, 0] [1, 0] ≠ 0
    ∧ (1 : Nat) ≤ 5
    ∧ ((_add_documents_fallback emptyState "w" [catDoc] "f").1 = true
      ∧ ∃ r rest,
          (_search_documents_fallback
            (_add_documents_fallback emptyState "w" [catDoc] "f").2
            "w" (some [1, 0]) 5).1 = r :: rest
          ∧ r.score = 1) := by
  have hdim : ∀ d ∈ [catDoc], d.embedding.length = 2 := by
    intro d hd
    rw [List.mem_singleton.mp hd]
    rfl
  have hq : ∃ d ∈ [catDoc], d.embedding = [1, 0] :=
    ⟨catDoc, List.mem_singleton.mpr rfl, rfl⟩
  have hnz : dotList [(1 : Real), 0] [(1 : Real), 0] ≠ 0 := by
    norm_num [dotList]
  exact ⟨hdim, hq, hnz, by norm_num,
    claim_C5_amended_exact_match_top_score emptyState "w" "f" [catDoc]
      [1, 0] 5 2 hdim hq hnz (by norm_num)⟩

/-- With the fallback backend active and the collection resident in
memory, the stats read after an `add_documents` count the prior documents
plus the whole appended batch. -/
theorem stats_after_add_engine (st2 : VectorStore) (sid fn : String)
    (col : FallbackCollection) (docs : List DocumentIn)
    (q1 : PrimaryOutcome Unit) (q2 : PrimaryOutcome (Option CollectionStats))
    (hm : st2.milvus_available = false)
    (hcol : st2.collections (_format_collection_name sid) = some col) :
    ∃ s, (get_collection_stats (add_documents st2 sid docs fn q1).2 sid q2).1 =
        some s
      ∧ s.num_entities = col.documents.length + docs.length := by
  have hadd : add_documents st2 sid docs fn q1 =
      _add_documents_fallback st2 (_format_collection_name sid) docs fn := by
    simp [add_documents, hm]
  obtain ⟨col', hcol', heq⟩ :=
    add_fallback_spec st2 (_format_collection_name sid) docs fn
  have hlc : loadOrCreate st2 (_format_collection_name sid) = st2 := by
    simp [loadOrCreate, hcol]
  rw [hlc] at hcol' heq
  rw [hcol] at hcol'
  have hcc : col' = col := by
    injection hcol' with h
    exact h.symm
  subst hcc
  rw [hadd, heq]
  refine ⟨⟨_format_collection_name sid,
    (col'.documents ++ mkEntries st2.next_id fn docs).length,
    "Fallback vector storage", "file"⟩, ?_, ?_⟩
  · simp [get_collection_stats, hm, _get_collection_stats_fallback,
      lookupOrLoad, updMap]
  · simp [mkEntries_length]

/-- C8: starting from a state with no collection for the session (neither
in memory nor on file), two one-fragment `add_documents` calls both
succeed, the collection is created lazily by the first call, and
`get_collection_stats` then returns a record with `num_entities = 2`; in
general, for any resident collection, the entity count after an add is
the prior document count plus the size of the appended batch. -/
theorem claim_C8_lazy_create_and_counted_stats (st : VectorStore)
    (sid fn1 fn2 : String) (f1 f2 : DocumentIn)
    (p1 p2 : PrimaryOutcome Unit) (p3 : PrimaryOutcome (Option CollectionStats))
    (hmil : st.milvus_available = false)
    (hmem : st.collections (_format_collection_name sid) = none)
    (hfile : st.files (_format_collection_name sid) = none) :
    (add_documents st sid [f1] fn1 p1).1 = true
    ∧ ((add_documents st sid [f1] fn1 p1).2.collections
        (_format_collection_name sid)).isSome = true
    ∧ (add_documents (add_documents st sid [f1] fn1 p1).2 sid [f2] fn2 p2).1 = true
    ∧ (∃ s, (get_collection_stats
          (add_documents (add_documents st sid [f1] fn1 p1).2 sid [f2] fn2 p2).2
          sid p3).1 = some s ∧ s.num_entities = 2)
    ∧ ∀ (st2 : VectorStore) (col : FallbackCollection)
        (docs : List DocumentIn) (fn : String) (q1 : PrimaryOutcome Unit)
        (q2 : PrimaryOutcome (Option CollectionStats)),
        st2.milvus_available = false →
        st2.collections (_format_collection_name sid) = some col →
        ∃ s, (get_collection_stats (add_documents st2 sid docs fn q1).2 sid
            q2).1 = some s
          ∧ s.num_entities = col.documents.length + docs.length := by
  have hadd1 : add_documents st sid [f1] fn1 p1 =
      _add_documents_fallback st (_format_collection_name sid) [f1] fn1 := by
    simp [add_documents, hmil]
  obtain ⟨col0, hcol0, heq0⟩ :=
    add_fallback_spec st (_format_collection_name sid) [f1] fn1
  have hlc : (loadOrCreate st (_format_collection_name sid)).collections
      (_format_collection_name sid) = some ⟨[]⟩ := by
    simp [loadOrCreate, _create_fallback_collection, hmem, hfile, updMap]
  have hc0 : col0 = ⟨[]⟩ := by
    rw [hlc] at hcol0
    injection hcol0 with h
    exact h.symm
  subst hc0
  have hpost1mil : (add_documents st sid [f1] fn1 p1).2.milvus_available =
      false := by
    rw [hadd1, _add_documents_fallback_milvus]
    exact hmil
  have hpost1col : (add_documents st sid [f1] fn1 p1).2.collections
      (_format_collection_name sid) =
      some ⟨FallbackCollection.documents ⟨[]⟩ ++
        mkEntries (loadOrCreate st (_format_collection_name sid)).next_id
          fn1 [f1]⟩ := by
    rw [hadd1, heq0]
    simp [updMap]
  refine ⟨by rw [hadd1, heq0], by rw [hpost1col]; rfl, ?_, ?_, ?_⟩
  · have hfst := _add_documents_fallback_fst
      (add_documents st sid [f1] fn1 p1).2 (_format_collection_name sid)
      [f2] fn2
    generalize hg : (add_documents st sid [f1] fn1 p1).2 = post1
      at hpost1mil hfst ⊢
    simp [add_documents, hpost1mil, hfst]
  · obtain ⟨s, hs, hn⟩ := stats_after_add_engine
      (add_documents st sid [f1] fn1 p1).2 sid fn2 _ [f2] p2 p3
      hpost1mil hpost1col
    refine ⟨s, hs, ?_⟩
    rw [hn]
    simp [mkEntries_length]
  · intro st2 col docs fn q1 q2 hm2 hcol2
    exact stats_after_add_engine st2 sid fn col docs q1 q2 hm2 hcol2

/-- Witness for C8 from the empty store. -/
theorem claim_C8_lazy_create_and_counted_stats_witness :
    emptyState.milvus_available = false
    ∧ emptyState.collections (_format_collection_name "a") = none
    ∧ emptyState.files (_format_collection_name "a") = none
    ∧ ((add_documents emptyState "a" [catDoc] "g1" (PrimaryOutcome.ok ())).1 = true
      ∧ ((add_documents emptyState "a" [catDoc] "g1"
          (PrimaryOutcome.ok ())).2.collections
          (_format_collection_name "a")).isSome = true
      ∧ (add_documents (add_documents emptyState "a" [catDoc] "g1"
          (PrimaryOutcome.ok ())).2 "a" [dogDoc] "g2"
          (PrimaryOutcome.ok ())).1 = true
      ∧ (∃ s, (get_collection_stats
            (add_documents (add_documents emptyState "a" [catDoc] "g1"
              (PrimaryOutcome.ok ())).2 "a" [dogDoc] "g2"
              (PrimaryOutcome.ok ())).2 "a" PrimaryOutcome.raise).1 = some s
          ∧ s.num_entities = 2)
      ∧ ∀ (st2 : VectorStore) (col : FallbackCollection)
          (docs : List DocumentIn) (fn : String) (q1 : PrimaryOutcome Unit)
          (q2 : PrimaryOutcome (Option CollectionStats)),
          st2.milvus_available = false →
          st2.collections (_format_collection_name "a") = some col →
          ∃ s, (get_collection_stats (add_documents st2 "a" docs fn q1).2 "a"
              q2).1 = some s
            ∧ s.num_entities = col.documents.length + docs.length) :=
  ⟨rfl, rfl, rfl,
    claim_C8_lazy_create_and_counted_stats emptyState "a" "g1" "g2" catDoc
      dogDoc (PrimaryOutcome.ok ()) (PrimaryOutcome.ok ())
      PrimaryOutcome.raise rfl rfl rfl⟩
